import Mathlib

/-!
Shallow embedding of the PML (Perfectly Matched Layer) core of
`examples/ex23p.cpp`: the PML layer-geometry derivation
(`compute_pml_mesh_data`), the element classifier
(`compute_pml_elem_list`), the complex stretching function
(`pml_function`), the scalar coefficient builder
(`pml_detJ_inv_Re` / `pml_detJ_inv_Im`), the closed-form excitation
(`maxwell_ess_data`), the essential boundary-data providers
(`E_bdr_data_Re` / `E_bdr_data_Im`) and the volumetric source
(`source_im`).

Machine doubles are modelled as exact rationals wherever the source
computes only field operations; the transcendental parts
(sqrt, sin, exp, pi, the libm Bessel functions) are modelled over the
real/complex numbers, with the libm Bessel functions `jn` / `yn`
taken as parameters since they are external library functions.
The file-scope mutable globals of the source (`dim`, `omega`, `prob`,
`domain_bdr`, `pml_lngth`, `comp_domain_bdr`) are bundled into one
explicit `Config` record passed to every function.
-/

namespace Ex23p

/-- The `prob_type` enumeration of the source. -/
inductive ProbType
  | load_src
  | scatter
  | waveguide
  | cyl_waveguide
deriving DecidableEq, Repr

/-- Complex numbers with exact rational components, modelling
`std::complex<double>` for the branches of the source that perform only
field operations (no transcendental calls). -/
structure Cq where
  re : ℚ
  im : ℚ
deriving DecidableEq, Repr

namespace Cq

def add (z w : Cq) : Cq := ⟨z.re + w.re, z.im + w.im⟩

def mul (z w : Cq) : Cq := ⟨z.re * w.re - z.im * w.im, z.re * w.im + z.im * w.re⟩

def normSq (z : Cq) : ℚ := z.re ^ 2 + z.im ^ 2

/-- Complex inversion `1/z` via the conjugate; on `z = 0` it returns the
junk value `0`, mirroring Lean's division convention. -/
def inv (z : Cq) : Cq := ⟨z.re / z.normSq, -z.im / z.normSq⟩

instance : Add Cq := ⟨Cq.add⟩
instance : Mul Cq := ⟨Cq.mul⟩
instance : One Cq := ⟨⟨1, 0⟩⟩
instance : Zero Cq := ⟨⟨0, 0⟩⟩
instance : Div Cq := ⟨fun z w => z * w.inv⟩

/-- The imaginary unit `zi` of the source. -/
def I : Cq := ⟨0, 1⟩

/-- Embedding of a real (rational) scalar. -/
def ofRat (q : ℚ) : Cq := ⟨q, 0⟩

theorem ext2 {z w : Cq} (h1 : z.re = w.re) (h2 : z.im = w.im) : z = w := by
  cases z; cases w; simp_all

@[simp] theorem add_re (z w : Cq) : (z + w).re = z.re + w.re := rfl
@[simp] theorem add_im (z w : Cq) : (z + w).im = z.im + w.im := rfl
@[simp] theorem mul_re (z w : Cq) : (z * w).re = z.re * w.re - z.im * w.im := rfl
@[simp] theorem mul_im (z w : Cq) : (z * w).im = z.re * w.im + z.im * w.re := rfl
@[simp] theorem one_re : (1 : Cq).re = 1 := rfl
@[simp] theorem one_im : (1 : Cq).im = 0 := rfl
@[simp] theorem I_re : Cq.I.re = 0 := rfl
@[simp] theorem I_im : Cq.I.im = 1 := rfl
@[simp] theorem ofRat_re (q : ℚ) : (Cq.ofRat q).re = q := rfl
@[simp] theorem ofRat_im (q : ℚ) : (Cq.ofRat q).im = 0 := rfl
@[simp] theorem inv_re (z : Cq) : z.inv.re = z.re / z.normSq := rfl
@[simp] theorem inv_im (z : Cq) : z.inv.im = -z.im / z.normSq := rfl

theorem one_mul_cq (z : Cq) : (1 : Cq) * z = z := by
  apply ext2 <;> simp

theorem normSq_mul (z w : Cq) : (z * w).normSq = z.normSq * w.normSq := by
  simp only [normSq, mul_re, mul_im]; ring

theorem inv_mul_cancel_cq {z : Cq} (h : z.normSq ≠ 0) : z.inv * z = 1 := by
  apply ext2
  · simp only [mul_re, inv_re, inv_im]
    field_simp
    simp only [normSq]; ring
  · simp only [mul_im, inv_re, inv_im]
    field_simp
    ring

end Cq

/-- The file-scope globals of `ex23p.cpp` bundled into one record:
`dim`, `omega`, the active `prob` variant and the three `Array2D<double>`
tables (indexed axis then side, side `0` = low / `1` = high). -/
structure Config where
  dim : ℕ
  omega : ℚ
  prob : ProbType
  domain_bdr : ℕ → ℕ → ℚ
  pml_lngth : ℕ → ℕ → ℚ
  comp_domain_bdr : ℕ → ℕ → ℚ

/-!  ### `compute_pml_mesh_data` (lines 489-529)

Only the policy part is embedded (the bounding box extraction from the
nodal coordinates is the excluded Geometry Bounds Extractor; here the
Domain Box arrives as `cfg.domain_bdr`).  `Array2D::SetSize` does not
initialize its entries, so the function receives the prior contents of
`pml_lngth` / `comp_domain_bdr` through `cfg` and only overwrites the
entries the source assigns. -/
def compute_pml_mesh_data (cfg : Config) : Config :=
  match cfg.prob with
  | ProbType.scatter | ProbType.load_src =>
      -- both sides of every axis: width = 0.25 * extent, box shrunk inward
      let lngth : ℕ → ℕ → ℚ := fun i j =>
        if i < cfg.dim ∧ j < 2 then
          (1/4) * (cfg.domain_bdr i 1 - cfg.domain_bdr i 0)
        else cfg.pml_lngth i j
      let comp : ℕ → ℕ → ℚ := fun i j =>
        if i < cfg.dim ∧ j < 2 then
          (if j = 0 then cfg.domain_bdr i 0 + lngth i 0
           else cfg.domain_bdr i 1 - lngth i 1)
        else cfg.comp_domain_bdr i j
      { cfg with pml_lngth := lngth, comp_domain_bdr := comp }
  | ProbType.waveguide =>
      -- comp box = domain box, then pml only on the high side of axis 0
      let comp0 : ℕ → ℕ → ℚ := fun i j =>
        if i < cfg.dim ∧ j < 2 then cfg.domain_bdr i j
        else cfg.comp_domain_bdr i j
      let lngth : ℕ → ℕ → ℚ := fun i j =>
        if i = 0 ∧ j = 1 then
          (1/4) * (cfg.domain_bdr 0 1 - cfg.domain_bdr 0 0)
        else cfg.pml_lngth i j
      let comp : ℕ → ℕ → ℚ := fun i j =>
        if i = 0 ∧ j = 1 then cfg.domain_bdr 0 1 - lngth 0 1
        else comp0 i j
      { cfg with pml_lngth := lngth, comp_domain_bdr := comp }
  | ProbType.cyl_waveguide =>
      -- comp box = domain box, then pml only on the high side of axis 2
      let comp0 : ℕ → ℕ → ℚ := fun i j =>
        if i < cfg.dim ∧ j < 2 then cfg.domain_bdr i j
        else cfg.comp_domain_bdr i j
      let lngth : ℕ → ℕ → ℚ := fun i j =>
        if i = 2 ∧ j = 1 then
          (1/8) * (cfg.domain_bdr 2 1 - cfg.domain_bdr 2 0)
        else cfg.pml_lngth i j
      let comp : ℕ → ℕ → ℚ := fun i j =>
        if i = 2 ∧ j = 1 then cfg.domain_bdr 2 1 - lngth 2 1
        else comp0 i j
      { cfg with pml_lngth := lngth, comp_domain_bdr := comp }

/-!  ### `pml_function` (lines 818-850)  -/

/-- The fixed polynomial order `n = 2.0` of the stretching function. -/
def pml_n : ℚ := 2

/-- The fixed damping strength `c = 10.0` of the stretching function. -/
def pml_c : ℚ := 10

/-- The high-side branch condition `x(i) >= comp_domain_bdr(i,1)`. -/
def pml_hi_applies (cfg : Config) (x : ℕ → ℚ) (i : ℕ) : Bool :=
  cfg.comp_domain_bdr i 1 ≤ x i

/-- The low-side branch condition `x(i) <= comp_domain_bdr(i,0)`. -/
def pml_lo_applies (cfg : Config) (x : ℕ → ℚ) (i : ℕ) : Bool :=
  x i ≤ cfg.comp_domain_bdr i 0

/-- High-side branch value:
`one + zi * coeff * abs(pow(x(i) - comp_domain_bdr(i,1), n - 1.0))`
with `coeff = n * c / omega / pow(pml_lngth(i,1), n)`; since the
exponents are the integral doubles `2.0` and `1.0`, `pow(w, n) = w^2`
and `pow(d, n-1.0) = d`. -/
def pml_hi_val (cfg : Config) (x : ℕ → ℚ) (i : ℕ) : Cq :=
  let coeff : ℚ := pml_n * pml_c / cfg.omega / (cfg.pml_lngth i 1) ^ 2
  1 + Cq.I * Cq.ofRat coeff * Cq.ofRat |x i - cfg.comp_domain_bdr i 1|

/-- Low-side branch value, symmetric to `pml_hi_val` using
`pml_lngth(i,0)` and `comp_domain_bdr(i,0)`. -/
def pml_lo_val (cfg : Config) (x : ℕ → ℚ) (i : ℕ) : Cq :=
  let coeff : ℚ := pml_n * pml_c / cfg.omega / (cfg.pml_lngth i 0) ^ 2
  1 + Cq.I * Cq.ofRat coeff * Cq.ofRat |x i - cfg.comp_domain_bdr i 0|

/-- One iteration of the inner `j`-loop body of `pml_function`: the two
sequential `if` statements, each overwriting `dxs[i]`. -/
def pml_body (cfg : Config) (x : ℕ → ℚ) (i : ℕ) (d : Cq) : Cq :=
  let d1 := if pml_hi_applies cfg x i then pml_hi_val cfg x i else d
  if pml_lo_applies cfg x i then pml_lo_val cfg x i else d1

/-- `pml_function`: `dxs[i]` starts at `one` and the body runs for
`j = 0` and `j = 1` (the loop variable is unused by the body). -/
def pml_function (cfg : Config) (x : ℕ → ℚ) (i : ℕ) : Cq :=
  pml_body cfg x i (pml_body cfg x i 1)

/-!  ### `pml_detJ_inv_Re` / `pml_detJ_inv_Im` (lines 852-879)  -/

/-- The determinant loop `det *= dxs[i]` over `i < dim`, starting from
`det = (1.0, 0.0)`. -/
def pml_det (cfg : Config) (x : ℕ → ℚ) : Cq :=
  (List.range cfg.dim).foldl (fun d i => d * pml_function cfg x i) 1

/-- `pml_detJ_inv_Re`: real part of `one / det`. -/
def pml_detJ_inv_Re (cfg : Config) (x : ℕ → ℚ) : ℚ :=
  ((1 : Cq) / pml_det cfg x).re

/-- `pml_detJ_inv_Im`: imaginary part of `one / det`. -/
def pml_detJ_inv_Im (cfg : Config) (x : ℕ → ℚ) : ℚ :=
  ((1 : Cq) / pml_det cfg x).im

/-!  ### `compute_pml_elem_list` (lines 535-584)  -/

/-- The vertex scan of `compute_pml_elem_list`: the `in_pml` flag starts
`false` and is set when any vertex has, on any axis `comp < dim`, a
coordinate strictly outside the computational box; since the flag is
only ever set, the double loop is a disjunction over all
(vertex, axis) pairs. -/
def elem_in_pml (cfg : Config) (verts : List (ℕ → ℚ)) : Bool :=
  verts.any (fun v =>
    (List.range cfg.dim).any (fun comp =>
      decide (v comp > cfg.comp_domain_bdr comp 1) ||
      decide (v comp < cfg.comp_domain_bdr comp 0)))

/-- `compute_pml_elem_list`: the flag array starts at `1` and an element
is set to `0` when `in_pml` holds (so `1` = interior, `0` = pml); each
element is given by the coordinate vectors of its vertices. -/
def compute_pml_elem_list (cfg : Config) (elems : List (List (ℕ → ℚ))) :
    List ℤ :=
  elems.map (fun el => if elem_in_pml cfg el then 0 else 1)

/-!  ### `maxwell_ess_data` (lines 586-711)

The Bessel functions `jn` / `yn` come from libm (external to this
repository), so they are parameters of the embedding. -/

/-- The libm Bessel functions of the first (`jn`) and second (`yn`)
kind, external collaborators of the excitation provider. -/
structure Libm where
  jn : ℕ → ℝ → ℝ
  yn : ℕ → ℝ → ℝ

/-- The shift vector of the scattering branch:
`shift(i) = -0.5 * (domain_bdr(i,0) + domain_bdr(i,1))`. -/
def scatter_shift (cfg : Config) (i : ℕ) : ℚ :=
  -(1/2) * (cfg.domain_bdr i 0 + cfg.domain_bdr i 1)

/-- The radial distance of the 2-D scattering branch:
`r = sqrt(x0*x0 + x1*x1)` with `x0 = x(0) + shift(0)`,
`x1 = x(1) + shift(1)`. -/
noncomputable def scatter_r2 (cfg : Config) (x : ℕ → ℚ) : ℝ :=
  Real.sqrt (((x 0 + scatter_shift cfg 0 : ℚ) : ℝ) ^ 2 +
             ((x 1 + scatter_shift cfg 1 : ℚ) : ℝ) ^ 2)

/-- The 2-D scattering branch of `maxwell_ess_data` (lines 645-673):
the dyadic Green's function built from the Hankel function
`Ho = J0 + i Y0` and its radial derivatives, differentiated by the
chain rule.  No case distinguishes `r = 0`; the divisions by `r` (and
by `beta = omega * r`) are unguarded. -/
noncomputable def scatter2d_E (cfg : Config) (lib : Libm) (x : ℕ → ℚ) : ℕ → ℂ :=
  let zi : ℂ := Complex.I
  let om : ℝ := (cfg.omega : ℝ)
  let x0 : ℝ := ((x 0 + scatter_shift cfg 0 : ℚ) : ℝ)
  let x1 : ℝ := ((x 1 + scatter_shift cfg 1 : ℚ) : ℝ)
  let r : ℝ := scatter_r2 cfg x
  let beta : ℝ := om * r
  let Ho : ℂ := lib.jn 0 beta + zi * lib.yn 0 beta
  let Ho_r : ℂ := -om * (lib.jn 1 beta + zi * lib.yn 1 beta)
  let Ho_rr : ℂ := -om * om *
    ((1 / beta : ℝ) * (lib.jn 1 beta + zi * lib.yn 1 beta) -
     (lib.jn 2 beta + zi * lib.yn 2 beta))
  let r_x : ℝ := x0 / r
  let r_y : ℝ := x1 / r
  let r_xy : ℝ := -(r_x / r) * r_y
  let r_xx : ℝ := (1 / r) * (1 - r_x * r_x)
  let val : ℂ := (1/4 : ℝ) * zi * Ho
  let val_x : ℂ := (1/4 : ℝ) * zi * r_x * Ho_r
  let val_xx : ℂ := (1/4 : ℝ) * zi * ((r_xx : ℝ) * Ho_r + (r_x * r_x : ℝ) * Ho_rr)
  let val_xy : ℂ := (1/4 : ℝ) * zi * ((r_xy : ℝ) * Ho_r + (r_x * r_y : ℝ) * Ho_rr)
  fun j =>
    if j = 0 then zi / om * ((om * om : ℝ) * val + val_xx)
    else if j = 1 then zi / om * val_xy
    else 0

/-- The 3-D scattering branch of `maxwell_ess_data` (lines 674-709):
outgoing spherical wave `exp(i omega r)/r` and its derivatives.
As in 2-D, the divisions by `r` are unguarded. -/
noncomputable def scatter3d_E (cfg : Config) (x : ℕ → ℚ) : ℕ → ℂ :=
  let zi : ℂ := Complex.I
  let om : ℝ := (cfg.omega : ℝ)
  let x0 : ℝ := ((x 0 + scatter_shift cfg 0 : ℚ) : ℝ)
  let x1 : ℝ := ((x 1 + scatter_shift cfg 1 : ℚ) : ℝ)
  let x2 : ℝ := ((x 2 + scatter_shift cfg 2 : ℚ) : ℝ)
  let r : ℝ := Real.sqrt (x0 ^ 2 + x1 ^ 2 + x2 ^ 2)
  let r_x : ℝ := x0 / r
  let r_y : ℝ := x1 / r
  let r_z : ℝ := x2 / r
  let r_xx : ℝ := (1 / r) * (1 - r_x * r_x)
  let r_yx : ℝ := -(r_y / r) * r_x
  let r_zx : ℝ := -(r_z / r) * r_x
  let val : ℂ := Complex.exp (zi * om * r) / (r : ℂ)
  let val_r : ℂ := val / (r : ℂ) * (zi * om - 1)
  let val_rr : ℂ := val / ((r * r : ℝ) : ℂ) *
    ((-(om * om * r * r) : ℝ) - 2 * zi * (om * r : ℝ) + 2)
  let val_xx : ℂ := val_rr * (r_x * r_x : ℝ) + val_r * (r_xx : ℝ)
  let val_yx : ℂ := val_rr * (r_x * r_y : ℝ) + val_r * (r_yx : ℝ)
  let val_zx : ℂ := val_rr * (r_x * r_z : ℝ) + val_r * (r_zx : ℝ)
  let alpha : ℂ := zi * om / 4 / (Real.pi : ℂ) / om / om
  fun j =>
    if j = 0 then alpha * ((om * om : ℝ) * val + val_xx)
    else if j = 1 then alpha * val_yx
    else if j = 2 then alpha * val_zx
    else 0

/-- The waveguide (`T_10` mode) branch of `maxwell_ess_data`
(lines 596-607): `E[1] = -zi*omega/pi * sin(pi*x(2)) * exp(zi*k10*x(0))`
with `k10 = sqrt(omega^2 - pi^2)`, normalized by `Ho = omega/pi`. -/
noncomputable def wg_E1 (cfg : Config) (x : ℕ → ℚ) : ℂ :=
  let zi : ℂ := Complex.I
  let om : ℝ := (cfg.omega : ℝ)
  let k10 : ℝ := Real.sqrt (om * om - Real.pi * Real.pi)
  let Ho : ℝ := om / Real.pi
  (-zi * (om / Real.pi : ℝ) * (Real.sin (Real.pi * ((x 2 : ℚ) : ℝ)) : ℝ) *
    Complex.exp (zi * (k10 : ℝ) * ((x 0 : ℚ) : ℝ))) / (Ho : ℂ)

/-- `maxwell_ess_data`: the output vector starts at zero and the branch
of the active variant fills it (`load_src` has no branch and leaves it
zero). -/
noncomputable def maxwell_ess_data (cfg : Config) (lib : Libm) (x : ℕ → ℚ) : ℕ → ℂ :=
  match cfg.prob with
  | ProbType.waveguide => fun j => if j = 1 then wg_E1 cfg x else 0
  | ProbType.cyl_waveguide =>
      if x 2 = 0 then fun j => if j = 0 then 1 else if j = 1 then 1 else 0
      else fun _ => 0
  | ProbType.scatter =>
      if cfg.dim = 2 then scatter2d_E cfg lib x else scatter3d_E cfg x
  | ProbType.load_src => fun _ => 0

/-!  ### `E_bdr_data_Re` / `E_bdr_data_Im` (lines 713-815)  -/

/-- The absolute tolerance `1e-13` of the boundary comparisons. -/
def bdr_eps : ℚ := 1 / 10 ^ 13

/-- The `in_pml` scan of the scattering branch of the boundary-data
providers: some axis `i < dim` has `|x(i) - domain_bdr(i,0)| < 1e-13`
or `|x(i) - domain_bdr(i,1)| < 1e-13`. -/
def bdr_in_pml (cfg : Config) (x : ℕ → ℚ) : Bool :=
  (List.range cfg.dim).any (fun i =>
    decide (|x i - cfg.domain_bdr i 0| < bdr_eps) ||
    decide (|x i - cfg.domain_bdr i 1| < bdr_eps))

/-- `E_bdr_data_Re`: `E = 0.0` then the branch of the active variant;
the scattering branch skips the evaluation when `in_pml` holds, the
waveguide branch overwrites with zero on the far face
`|x(0) - domain_bdr(0,1)| < 1e-13`. -/
noncomputable def E_bdr_data_Re (cfg : Config) (lib : Libm) (x : ℕ → ℚ) : ℕ → ℝ :=
  match cfg.prob with
  | ProbType.scatter =>
      if bdr_in_pml cfg x then fun _ => 0
      else fun j => if j < cfg.dim then (maxwell_ess_data cfg lib x j).re else 0
  | ProbType.waveguide =>
      if |x 0 - cfg.domain_bdr 0 1| < bdr_eps then fun _ => 0
      else fun j => if j < cfg.dim then (maxwell_ess_data cfg lib x j).re else 0
  | ProbType.cyl_waveguide =>
      fun j => if j < cfg.dim then (maxwell_ess_data cfg lib x j).re else 0
  | ProbType.load_src => fun _ => 0

/-- `E_bdr_data_Im`: identical structure to `E_bdr_data_Re`, taking the
imaginary parts. -/
noncomputable def E_bdr_data_Im (cfg : Config) (lib : Libm) (x : ℕ → ℚ) : ℕ → ℝ :=
  match cfg.prob with
  | ProbType.scatter =>
      if bdr_in_pml cfg x then fun _ => 0
      else fun j => if j < cfg.dim then (maxwell_ess_data cfg lib x j).im else 0
  | ProbType.waveguide =>
      if |x 0 - cfg.domain_bdr 0 1| < bdr_eps then fun _ => 0
      else fun j => if j < cfg.dim then (maxwell_ess_data cfg lib x j).im else 0
  | ProbType.cyl_waveguide =>
      fun j => if j < cfg.dim then (maxwell_ess_data cfg lib x j).im else 0
  | ProbType.load_src => fun _ => 0

/-!  ### `source_im` (lines 426-450)  -/

/-- `source_im`: a Gaussian-like bump centred at the computational-box
centre is written into `f_im[0]` only; the vector `f_im` passed by the
caller keeps its prior contents in every other component (the
`f_im = 0.0;` initialization is commented out in the source). -/
noncomputable def source_im (cfg : Config) (x : ℕ → ℚ) (f_im : ℕ → ℝ) : ℕ → ℝ :=
  let center : ℕ → ℚ := fun i =>
    (1/2) * (cfg.comp_domain_bdr i 0 + cfg.comp_domain_bdr i 1)
  let r : ℚ := ((List.range cfg.dim).map (fun i => (x i - center i) ^ 2)).sum
  let n : ℝ := 5 * (cfg.omega : ℝ) / Real.pi
  let coeff : ℝ := n ^ 2 / Real.pi
  let alpha : ℝ := -(n ^ 2) * (r : ℝ)
  fun j => if j = 0 then coeff * Real.exp alpha else f_im j

/-!  ### Concrete configurations used by the witnesses  -/

/-- The 2-D scattering scenario before the layer-geometry pass: unit
square domain `[0,1]^2`; the `pml_lngth` / `comp_domain_bdr` tables
still hold their unspecified pre-`SetSize` contents (here `0`). -/
def unitSquareCfg : Config where
  dim := 2
  omega := 1
  prob := ProbType.scatter
  domain_bdr := fun _ j => if j = 1 then 1 else 0
  pml_lngth := fun _ _ => 0
  comp_domain_bdr := fun _ _ => 0

/-- The 2-D scattering scenario after `compute_pml_mesh_data`:
computational box `[1/4, 3/4]^2`, widths `1/4` on every side. -/
def unitSquarePml : Config := compute_pml_mesh_data unitSquareCfg

/-- The rectangular-waveguide scenario before the layer-geometry pass:
domain `[0,8] x [0,1] x [0,1]` (the source builds an 8x1x1 hexahedral
mesh); the unspecified pre-`SetSize` contents of the two tables are
modelled by the marker value `37`. -/
def wgCfg : Config where
  dim := 3
  omega := 1
  prob := ProbType.waveguide
  domain_bdr := fun i j => if j = 1 then (if i = 0 then 8 else 1) else 0
  pml_lngth := fun _ _ => 37
  comp_domain_bdr := fun _ _ => 37

/-- The rectangular-waveguide scenario after `compute_pml_mesh_data`. -/
def wgPml : Config := compute_pml_mesh_data wgCfg

/-- The cylindrical-waveguide scenario before the layer-geometry pass:
domain `[0,1]^2 x [0,8]`, pre-`SetSize` contents modelled by `37`. -/
def cylCfg : Config where
  dim := 3
  omega := 1
  prob := ProbType.cyl_waveguide
  domain_bdr := fun i j => if j = 1 then (if i = 2 then 8 else 1) else 0
  pml_lngth := fun _ _ => 37
  comp_domain_bdr := fun _ _ => 37

/-- A volumetric-load configuration on the unit square. -/
def loadCfg : Config where
  dim := 2
  omega := 1
  prob := ProbType.load_src
  domain_bdr := fun _ j => if j = 1 then 1 else 0
  pml_lngth := fun _ _ => 0
  comp_domain_bdr := fun _ _ => 0

/-- A one-axis configuration whose high-side layer width is zero while
`comp_domain_bdr(0,1) = domain_bdr(0,1)`. -/
def zeroWidthCfg : Config where
  dim := 1
  omega := 1
  prob := ProbType.waveguide
  domain_bdr := fun _ j => if j = 1 then 1 else 0
  pml_lngth := fun _ _ => 0
  comp_domain_bdr := fun _ j => if j = 1 then 1 else 0

/-- A trivial instantiation of the external libm Bessel functions. -/
noncomputable def zeroLibm : Libm where
  jn := fun _ _ => 0
  yn := fun _ _ => 0

/-- The two elements of the 2-D classification scenario: one with all
four vertices at the centre `(1/2, 1/2)`, one with a vertex at the
domain corner `(0, 0)`. -/
def scenarioElems : List (List (ℕ → ℚ)) :=
  [[fun _ => 1/2, fun _ => 1/2, fun _ => 1/2, fun _ => 1/2],
   [fun _ => 0, fun j => if j = 0 then 1/8 else 0,
    fun _ => 1/8, fun j => if j = 0 then 0 else 1/8]]

/-!  ### Helper lemmas  -/

theorem pml_hi_val_eq (cfg : Config) (x : ℕ → ℚ) (i : ℕ) :
    pml_hi_val cfg x i =
      ⟨1, pml_n * pml_c / cfg.omega / (cfg.pml_lngth i 1) ^ 2 *
        |x i - cfg.comp_domain_bdr i 1|⟩ := by
  apply Cq.ext2 <;> simp [pml_hi_val]

theorem pml_lo_val_eq (cfg : Config) (x : ℕ → ℚ) (i : ℕ) :
    pml_lo_val cfg x i =
      ⟨1, pml_n * pml_c / cfg.omega / (cfg.pml_lngth i 0) ^ 2 *
        |x i - cfg.comp_domain_bdr i 0|⟩ := by
  apply Cq.ext2 <;> simp [pml_lo_val]

theorem pml_body_re (cfg : Config) (x : ℕ → ℚ) (i : ℕ) (d : Cq)
    (hd : d.re = 1) : (pml_body cfg x i d).re = 1 := by
  unfold pml_body
  rcases Bool.eq_false_or_eq_true (pml_lo_applies cfg x i) with h | h <;>
    rcases Bool.eq_false_or_eq_true (pml_hi_applies cfg x i) with h2 | h2 <;>
      simp [h, h2, pml_hi_val_eq, pml_lo_val_eq, hd]

theorem pml_function_re (cfg : Config) (x : ℕ → ℚ) (i : ℕ) :
    (pml_function cfg x i).re = 1 :=
  pml_body_re cfg x i _ (pml_body_re cfg x i 1 rfl)

theorem pml_function_normSq_ne (cfg : Config) (x : ℕ → ℚ) (i : ℕ) :
    (pml_function cfg x i).normSq ≠ 0 := by
  have h := pml_function_re cfg x i
  unfold Cq.normSq
  rw [h]
  positivity

theorem pml_det_normSq_ne (cfg : Config) (x : ℕ → ℚ) :
    (pml_det cfg x).normSq ≠ 0 := by
  unfold pml_det
  have key : ∀ (l : List ℕ) (init : Cq), init.normSq ≠ 0 →
      ((l.foldl (fun d i => d * pml_function cfg x i) init)).normSq ≠ 0 := by
    intro l
    induction l with
    | nil => intro init h; exact h
    | cons a l ih =>
        intro init h
        rw [List.foldl_cons]
        exact ih _ (by
          rw [Cq.normSq_mul]
          exact mul_ne_zero h (pml_function_normSq_ne cfg x a))
  exact key _ 1 (by norm_num [Cq.normSq])

/-!  ### Claims  -/

/-- C1: for every axis `i < dim`, the complex stretching function
returns `1 + 0i` when the point is strictly inside the computational
box on axis `i`; when the coordinate exceeds `comp_max[i]` it returns
`1 + i * coeff * |coord - comp_max[i]|^(n-1)` with
`coeff = n*c / (omega * width_hi[i]^n)`, `n = 2`, `c = 10` (so the
exponent `n-1` is `1`); symmetrically below `comp_min[i]` with
`width_lo[i]`. -/
theorem pml_function_branch_values (cfg : Config) (x : ℕ → ℚ) (i : ℕ)
    (hdim : i < cfg.dim)
    (hbox : cfg.comp_domain_bdr i 0 ≤ cfg.comp_domain_bdr i 1) :
    (cfg.comp_domain_bdr i 0 < x i → x i < cfg.comp_domain_bdr i 1 →
      pml_function cfg x i = 1) ∧
    (cfg.comp_domain_bdr i 1 < x i →
      pml_function cfg x i =
        ⟨1, pml_n * pml_c / (cfg.omega * (cfg.pml_lngth i 1) ^ 2) *
          |x i - cfg.comp_domain_bdr i 1|⟩) ∧
    (x i < cfg.comp_domain_bdr i 0 →
      pml_function cfg x i =
        ⟨1, pml_n * pml_c / (cfg.omega * (cfg.pml_lngth i 0) ^ 2) *
          |x i - cfg.comp_domain_bdr i 0|⟩) := by
  refine ⟨?_, ?_, ?_⟩
  · intro h1 h2
    have hhi : pml_hi_applies cfg x i = false := by
      simp only [pml_hi_applies, decide_eq_false_iff_not, not_le]
      exact h2
    have hlo : pml_lo_applies cfg x i = false := by
      simp only [pml_lo_applies, decide_eq_false_iff_not, not_le]
      exact h1
    simp [pml_function, pml_body, hhi, hlo]
  · intro h
    have hhi : pml_hi_applies cfg x i = true := by
      simp only [pml_hi_applies, decide_eq_true_eq]
      exact le_of_lt h
    have hlo : pml_lo_applies cfg x i = false := by
      simp only [pml_lo_applies, decide_eq_false_iff_not, not_le]
      exact lt_of_le_of_lt hbox h
    simp [pml_function, pml_body, hhi, hlo, pml_hi_val_eq, div_div]
  · intro h
    have hlo : pml_lo_applies cfg x i = true := by
      simp only [pml_lo_applies, decide_eq_true_eq]
      exact le_of_lt h
    simp [pml_function, pml_body, hlo, pml_lo_val_eq, div_div]

/-- Witness for C1 on the unit-square scattering configuration
(computational box `[1/4, 3/4]^2`, widths `1/4`, `omega = 1`): the
centre point, a point in the high-side layer and a point in the
low-side layer. -/
theorem pml_function_branch_values_witness :
    pml_function unitSquarePml (fun _ => 1/2) 0 = 1 ∧
    pml_function unitSquarePml (fun _ => 9/10) 0 =
      ⟨1, pml_n * pml_c /
          (unitSquarePml.omega * (unitSquarePml.pml_lngth 0 1) ^ 2) *
        |(fun _ => (9/10 : ℚ)) 0 - unitSquarePml.comp_domain_bdr 0 1|⟩ ∧
    pml_function unitSquarePml (fun _ => 1/10) 0 =
      ⟨1, pml_n * pml_c /
          (unitSquarePml.omega * (unitSquarePml.pml_lngth 0 0) ^ 2) *
        |(fun _ => (1/10 : ℚ)) 0 - unitSquarePml.comp_domain_bdr 0 0|⟩ :=
  ⟨(pml_function_branch_values unitSquarePml (fun _ => 1/2) 0 (by decide)
      (by norm_num [unitSquarePml, unitSquareCfg, compute_pml_mesh_data])).1
      (by norm_num [unitSquarePml, unitSquareCfg, compute_pml_mesh_data])
      (by norm_num [unitSquarePml, unitSquareCfg, compute_pml_mesh_data]),
   (pml_function_branch_values unitSquarePml (fun _ => 9/10) 0 (by decide)
      (by norm_num [unitSquarePml, unitSquareCfg, compute_pml_mesh_data])).2.1
      (by norm_num [unitSquarePml, unitSquareCfg, compute_pml_mesh_data]),
   (pml_function_branch_values unitSquarePml (fun _ => 1/10) 0 (by decide)
      (by norm_num [unitSquarePml, unitSquareCfg, compute_pml_mesh_data])).2.2
      (by norm_num [unitSquarePml, unitSquareCfg, compute_pml_mesh_data])⟩

/-- C6: the scalar coefficient `detJinv` produced by the PML
coefficient builder satisfies the round-trip identity
`detJinv * prod dxs[i] = 1` in exact complex arithmetic, for every
configuration and every point. -/
theorem pml_detJ_inv_roundtrip (cfg : Config) (x : ℕ → ℚ) :
    Cq.mk (pml_detJ_inv_Re cfg x) (pml_detJ_inv_Im cfg x) *
      pml_det cfg x = 1 := by
  have h1 : Cq.mk (pml_detJ_inv_Re cfg x) (pml_detJ_inv_Im cfg x)
      = (1 : Cq) / pml_det cfg x := rfl
  rw [h1]
  show (1 : Cq) * (pml_det cfg x).inv * pml_det cfg x = 1
  rw [Cq.one_mul_cq]
  exact Cq.inv_mul_cancel_cq (pml_det_normSq_ne cfg x)

/-- C7 counterexample: with `width_hi = 0` and
`comp_max(0) = domain_max(0)`, the high-side branch of the stretching
function does apply at the mesh point lying on the outer boundary
`x(0) = domain_max(0)` (the source tests `x(i) >= comp_domain_bdr(i,1)`),
and the `coeff` there divides by `width_hi^n = 0`; the claim that the
branch never applies for any point of the mesh is therefore false. -/
theorem pml_hi_branch_fires_at_boundary :
    zeroWidthCfg.pml_lngth 0 1 = 0 ∧
    zeroWidthCfg.comp_domain_bdr 0 1 = zeroWidthCfg.domain_bdr 0 1 ∧
    zeroWidthCfg.domain_bdr 0 0 ≤ (fun _ => (1 : ℚ)) 0 ∧
    (fun _ => (1 : ℚ)) 0 ≤ zeroWidthCfg.domain_bdr 0 1 ∧
    pml_hi_applies zeroWidthCfg (fun _ => 1) 0 = true ∧
    (zeroWidthCfg.pml_lngth 0 1) ^ 2 = 0 := by
  refine ⟨rfl, rfl, ?_, ?_, ?_, ?_⟩ <;>
    norm_num [zeroWidthCfg, pml_hi_applies]

/-- C7 (amended): when `width_hi[i] = 0` and
`comp_max[i] = domain_max[i]`, the high-side branch does not apply at
any point with `x(i)` strictly below `domain_max[i]`; only the points
exactly on the outer face `x(i) = domain_max[i]` satisfy the branch
condition `x(i) >= comp_max[i]` and evaluate `coeff` with its division
by `width_hi[i]^n = 0`. -/
theorem pml_hi_branch_unreachable_below_boundary (cfg : Config)
    (x : ℕ → ℚ) (i : ℕ)
    (hw : cfg.pml_lngth i 1 = 0)
    (hc : cfg.comp_domain_bdr i 1 = cfg.domain_bdr i 1)
    (hx : x i < cfg.domain_bdr i 1) :
    pml_hi_applies cfg x i = false := by
  simp only [pml_hi_applies, decide_eq_false_iff_not, not_le, hc]
  exact hx

/-- Witness for the amended C7: a point strictly inside the zero-width
configuration. -/
theorem pml_hi_branch_unreachable_below_boundary_witness :
    pml_hi_applies zeroWidthCfg (fun _ => 1/2) 0 = false :=
  pml_hi_branch_unreachable_below_boundary zeroWidthCfg (fun _ => 1/2) 0
    rfl rfl (by norm_num [zeroWidthCfg])

/-- C2: the PML layer geometry follows the variant policy table: for
scattering and volumetric load every axis gets a layer on both sides of
width `0.25 *` extent and the box shrinks accordingly; for the
rectangular waveguide only axis 0 gets a layer, only on its high side,
of width `0.25 *` extent (the computational box equals the domain box
everywhere else); for the cylindrical waveguide (3-D) only the last
axis (2) gets a layer, only on its high side, of width
`0.125 *` extent. -/
theorem compute_pml_mesh_data_policy (cfg : Config) :
    ((cfg.prob = ProbType.scatter ∨ cfg.prob = ProbType.load_src) →
      ∀ i < cfg.dim, ∀ j < 2,
        (compute_pml_mesh_data cfg).pml_lngth i j
          = (1/4) * (cfg.domain_bdr i 1 - cfg.domain_bdr i 0) ∧
        (compute_pml_mesh_data cfg).comp_domain_bdr i 0
          = cfg.domain_bdr i 0 + (compute_pml_mesh_data cfg).pml_lngth i 0 ∧
        (compute_pml_mesh_data cfg).comp_domain_bdr i 1
          = cfg.domain_bdr i 1 - (compute_pml_mesh_data cfg).pml_lngth i 1) ∧
    (cfg.prob = ProbType.waveguide →
      (compute_pml_mesh_data cfg).pml_lngth 0 1
        = (1/4) * (cfg.domain_bdr 0 1 - cfg.domain_bdr 0 0) ∧
      (compute_pml_mesh_data cfg).comp_domain_bdr 0 1
        = cfg.domain_bdr 0 1 - (compute_pml_mesh_data cfg).pml_lngth 0 1 ∧
      ∀ i < cfg.dim, ∀ j < 2, ¬(i = 0 ∧ j = 1) →
        (compute_pml_mesh_data cfg).comp_domain_bdr i j
          = cfg.domain_bdr i j) ∧
    (cfg.prob = ProbType.cyl_waveguide → cfg.dim = 3 →
      (compute_pml_mesh_data cfg).pml_lngth 2 1
        = (1/8) * (cfg.domain_bdr 2 1 - cfg.domain_bdr 2 0) ∧
      (compute_pml_mesh_data cfg).comp_domain_bdr 2 1
        = cfg.domain_bdr 2 1 - (compute_pml_mesh_data cfg).pml_lngth 2 1 ∧
      ∀ i < cfg.dim, ∀ j < 2, ¬(i = 2 ∧ j = 1) →
        (compute_pml_mesh_data cfg).comp_domain_bdr i j
          = cfg.domain_bdr i j) := by
  refine ⟨?_, ?_, ?_⟩
  · rintro (h | h) i hi j hj <;> interval_cases j <;>
      simp [compute_pml_mesh_data, h, hi]
  · intro h
    refine ⟨by simp [compute_pml_mesh_data, h], by simp [compute_pml_mesh_data, h], ?_⟩
    intro i hi j hj hne
    simp [compute_pml_mesh_data, h, hi, hj, hne]
  · intro h _
    refine ⟨by simp [compute_pml_mesh_data, h], by simp [compute_pml_mesh_data, h], ?_⟩
    intro i hi j hj hne
    simp [compute_pml_mesh_data, h, hi, hj, hne]

/-- Witness for C2: one instantiation per variant — the unit-square
scattering configuration, the `[0,8] x [0,1]^2` rectangular waveguide
and the `[0,1]^2 x [0,8]` cylindrical waveguide. -/
theorem compute_pml_mesh_data_policy_witness :
    ((compute_pml_mesh_data unitSquareCfg).pml_lngth 0 0
        = (1/4) * (unitSquareCfg.domain_bdr 0 1 - unitSquareCfg.domain_bdr 0 0) ∧
      (compute_pml_mesh_data unitSquareCfg).comp_domain_bdr 0 0
        = unitSquareCfg.domain_bdr 0 0 +
          (compute_pml_mesh_data unitSquareCfg).pml_lngth 0 0 ∧
      (compute_pml_mesh_data unitSquareCfg).comp_domain_bdr 0 1
        = unitSquareCfg.domain_bdr 0 1 -
          (compute_pml_mesh_data unitSquareCfg).pml_lngth 0 1) ∧
    ((compute_pml_mesh_data wgCfg).pml_lngth 0 1
        = (1/4) * (wgCfg.domain_bdr 0 1 - wgCfg.domain_bdr 0 0) ∧
      (compute_pml_mesh_data wgCfg).comp_domain_bdr 0 1
        = wgCfg.domain_bdr 0 1 - (compute_pml_mesh_data wgCfg).pml_lngth 0 1 ∧
      (compute_pml_mesh_data wgCfg).comp_domain_bdr 1 0 = wgCfg.domain_bdr 1 0) ∧
    ((compute_pml_mesh_data cylCfg).pml_lngth 2 1
        = (1/8) * (cylCfg.domain_bdr 2 1 - cylCfg.domain_bdr 2 0) ∧
      (compute_pml_mesh_data cylCfg).comp_domain_bdr 2 1
        = cylCfg.domain_bdr 2 1 - (compute_pml_mesh_data cylCfg).pml_lngth 2 1 ∧
      (compute_pml_mesh_data cylCfg).comp_domain_bdr 0 0 = cylCfg.domain_bdr 0 0) :=
  ⟨(compute_pml_mesh_data_policy unitSquareCfg).1 (Or.inl rfl) 0 (by decide)
      0 (by decide),
   by
     have h := (compute_pml_mesh_data_policy wgCfg).2.1 rfl
     exact ⟨h.1, h.2.1, h.2.2 1 (by decide) 0 (by decide) (by decide)⟩,
   by
     have h := (compute_pml_mesh_data_policy cylCfg).2.2 rfl rfl
     exact ⟨h.1, h.2.1, h.2.2 0 (by decide) 0 (by decide) (by decide)⟩⟩

/-- C3: the claimed invariant fails on the code for the waveguide
variants: the source only ever assigns the active entries of
`pml_lngth` (for the rectangular waveguide only `(0,1)`), and
`Array2D::SetSize` leaves the rest uninitialized, so the width on an
axis/side without a layer is whatever was in memory (modelled by the
marker value `37`) rather than zero, and
`comp_min(1) = domain_min(1) + width_lo(1)` fails. -/
theorem pml_lngth_uninitialized_waveguide :
    (compute_pml_mesh_data wgCfg).pml_lngth 1 0 = wgCfg.pml_lngth 1 0 ∧
    wgCfg.pml_lngth 1 0 = 37 ∧
    (compute_pml_mesh_data wgCfg).pml_lngth 1 0 ≠ 0 ∧
    (compute_pml_mesh_data wgCfg).comp_domain_bdr 1 0 ≠
      wgCfg.domain_bdr 1 0 + (compute_pml_mesh_data wgCfg).pml_lngth 1 0 := by
  refine ⟨rfl, rfl, ?_, ?_⟩ <;> norm_num [wgCfg, compute_pml_mesh_data]

/-- The characterization of the vertex scan of
`compute_pml_elem_list`. -/
theorem elem_in_pml_iff (cfg : Config) (verts : List (ℕ → ℚ)) :
    elem_in_pml cfg verts = true ↔
      ∃ v ∈ verts, ∃ c < cfg.dim,
        (v c > cfg.comp_domain_bdr c 1 ∨ v c < cfg.comp_domain_bdr c 0) := by
  simp [elem_in_pml, List.any_eq_true, List.mem_range]

/-- C4: the element classifier labels an element `pml` (flag `0`) if
and only if at least one of its vertices has a coordinate strictly
outside the computational box on some axis, and `interior` (flag `1`)
otherwise; on the 2-D unit-square scattering scenario (computational
box `[1/4, 3/4]^2`) an element with all vertices at the centre is
interior and an element with a vertex at `(0,0)` is pml. -/
theorem compute_pml_elem_list_spec :
    (∀ (cfg : Config) (elems : List (List (ℕ → ℚ))) (k : ℕ)
        (hk : k < elems.length)
        (hk2 : k < (compute_pml_elem_list cfg elems).length),
      ((compute_pml_elem_list cfg elems).get ⟨k, hk2⟩ = 0 ↔
        ∃ v ∈ elems.get ⟨k, hk⟩, ∃ c < cfg.dim,
          (v c > cfg.comp_domain_bdr c 1 ∨ v c < cfg.comp_domain_bdr c 0)) ∧
      ((compute_pml_elem_list cfg elems).get ⟨k, hk2⟩ = 1 ↔
        ¬ ∃ v ∈ elems.get ⟨k, hk⟩, ∃ c < cfg.dim,
          (v c > cfg.comp_domain_bdr c 1 ∨ v c < cfg.comp_domain_bdr c 0))) ∧
    compute_pml_elem_list unitSquarePml scenarioElems = [1, 0] := by
  constructor
  · intro cfg elems k hk hk2
    have hmap : (compute_pml_elem_list cfg elems).get ⟨k, hk2⟩
        = if elem_in_pml cfg (elems.get ⟨k, hk⟩) then 0 else 1 := by
      simp [compute_pml_elem_list, List.get_map]
    rw [hmap]
    by_cases h : elem_in_pml cfg (elems.get ⟨k, hk⟩) = true
    · rw [if_pos h]
      have hex := (elem_in_pml_iff cfg (elems.get ⟨k, hk⟩)).mp h
      exact ⟨iff_of_true rfl hex, iff_of_false (by norm_num) (fun hn => hn hex)⟩
    · rw [Bool.not_eq_true] at h
      rw [if_neg (by rw [h]; decide)]
      have hnex : ¬ ∃ v ∈ elems.get ⟨k, hk⟩, ∃ c < cfg.dim,
          (v c > cfg.comp_domain_bdr c 1 ∨ v c < cfg.comp_domain_bdr c 0) :=
        fun hex =>
          absurd (h.symm.trans ((elem_in_pml_iff cfg _).mpr hex)) (by decide)
      exact ⟨iff_of_false (by norm_num) hnex, iff_of_true rfl hnex⟩
  · have h1 : elem_in_pml unitSquarePml
        [fun _ => 1/2, fun _ => 1/2, fun _ => 1/2, fun _ => 1/2] = false := by
      simp only [elem_in_pml, unitSquarePml, unitSquareCfg, compute_pml_mesh_data]
      norm_num [List.range_succ]
    have h2 : elem_in_pml unitSquarePml
        [fun _ => 0, fun j => if j = 0 then 1/8 else 0,
         fun _ => 1/8, fun j => if j = 0 then 0 else 1/8] = true := by
      simp only [elem_in_pml, unitSquarePml, unitSquareCfg, compute_pml_mesh_data]
      norm_num [List.range_succ]
    simp only [compute_pml_elem_list, scenarioElems, List.map_cons, List.map_nil,
      h1, h2]
    simp

/-- Witness for C4: the iff applied to the corner element of the
scenario list. -/
theorem compute_pml_elem_list_spec_witness :
    (compute_pml_elem_list unitSquarePml scenarioElems).get ⟨1, by decide⟩ = 0 ↔
      ∃ v ∈ scenarioElems.get ⟨1, by decide⟩, ∃ c < unitSquarePml.dim,
        (v c > unitSquarePml.comp_domain_bdr c 1 ∨
         v c < unitSquarePml.comp_domain_bdr c 0) :=
  (compute_pml_elem_list_spec.1 unitSquarePml scenarioElems 1 (by decide)
    (by decide)).1

/-- C5: for the scattering and waveguide variants, the essential
boundary data (both real and imaginary parts) is the zero vector at
every point whose coordinate on a relevant axis lies within absolute
tolerance `1e-13` of the PML-side outer domain boundary: for
scattering any axis `i < dim` against either `domain_bdr(i,0)` or
`domain_bdr(i,1)`, for the waveguide axis `0` against
`domain_bdr(0,1)` (in particular the value at `x(0) = domain_max(0)`
is exactly zero regardless of the closed-form mode value). -/
theorem E_bdr_zero_near_pml_boundary (cfg : Config) (lib : Libm) (x : ℕ → ℚ) :
    (cfg.prob = ProbType.scatter →
      (∃ i < cfg.dim, |x i - cfg.domain_bdr i 0| < bdr_eps ∨
                      |x i - cfg.domain_bdr i 1| < bdr_eps) →
      ∀ j, E_bdr_data_Re cfg lib x j = 0 ∧ E_bdr_data_Im cfg lib x j = 0) ∧
    (cfg.prob = ProbType.waveguide →
      |x 0 - cfg.domain_bdr 0 1| < bdr_eps →
      ∀ j, E_bdr_data_Re cfg lib x j = 0 ∧ E_bdr_data_Im cfg lib x j = 0) := by
  constructor
  · intro hprob hex j
    have hpml : bdr_in_pml cfg x = true := by
      simp only [bdr_in_pml, List.any_eq_true, List.mem_range, Bool.or_eq_true,
        decide_eq_true_eq]
      obtain ⟨i, hi, hcase⟩ := hex
      exact ⟨i, hi, hcase⟩
    constructor <;> simp [E_bdr_data_Re, E_bdr_data_Im, hprob, hpml]
  · intro hprob hnear j
    constructor <;> simp [E_bdr_data_Re, E_bdr_data_Im, hprob, hnear]

/-- Witness for C5: the scattering corner point `(0,0)` of the unit
square, and the waveguide far face `x(0) = domain_max(0) = 8`, where
the full vector `[0,0,0]` is zero in both parts. -/
theorem E_bdr_zero_near_pml_boundary_witness :
    (E_bdr_data_Re unitSquarePml zeroLibm (fun _ => 0) 0 = 0 ∧
     E_bdr_data_Im unitSquarePml zeroLibm (fun _ => 0) 0 = 0) ∧
    (∀ j, E_bdr_data_Re wgPml zeroLibm (fun i => if i = 0 then 8 else 0) j = 0 ∧
          E_bdr_data_Im wgPml zeroLibm (fun i => if i = 0 then 8 else 0) j = 0) :=
  ⟨(E_bdr_zero_near_pml_boundary unitSquarePml zeroLibm (fun _ => 0)).1 rfl
      ⟨0, by decide,
        Or.inl (by norm_num [unitSquarePml, unitSquareCfg, compute_pml_mesh_data,
          bdr_eps])⟩ 0,
   fun j =>
    (E_bdr_zero_near_pml_boundary wgPml zeroLibm (fun i => if i = 0 then 8 else 0)).2
      rfl (by norm_num [wgPml, wgCfg, compute_pml_mesh_data, bdr_eps]) j⟩

/-- C8: for the scattering variant in 2-D, the excitation evaluated at
the source point (the centre of the domain box) has radial distance
`r = 0`, and `maxwell_ess_data` still takes the closed-form 2-D
scattering branch there — which divides by `r` (`r_x = x0 / r`,
`r_xx = (1/r) * ...`) with no special case for `r = 0` — producing a
computed value rather than failing. -/
theorem scatter_source_point_div_by_zero (cfg : Config) (lib : Libm)
    (hprob : cfg.prob = ProbType.scatter) (hdim : cfg.dim = 2) :
    scatter_r2 cfg (fun i => (1/2) * (cfg.domain_bdr i 0 + cfg.domain_bdr i 1))
      = 0 ∧
    maxwell_ess_data cfg lib
        (fun i => (1/2) * (cfg.domain_bdr i 0 + cfg.domain_bdr i 1))
      = scatter2d_E cfg lib
          (fun i => (1/2) * (cfg.domain_bdr i 0 + cfg.domain_bdr i 1)) := by
  constructor
  · unfold scatter_r2
    have h0 : ((1:ℚ)/2) * (cfg.domain_bdr 0 0 + cfg.domain_bdr 0 1) +
        scatter_shift cfg 0 = 0 := by
      unfold scatter_shift; ring
    have h1 : ((1:ℚ)/2) * (cfg.domain_bdr 1 0 + cfg.domain_bdr 1 1) +
        scatter_shift cfg 1 = 0 := by
      unfold scatter_shift; ring
    rw [h0, h1]
    simp [Real.sqrt_zero]
  · simp [maxwell_ess_data, hprob, hdim]

/-- Witness for C8: the unit-square scattering configuration, whose
source point is `(1/2, 1/2)`. -/
theorem scatter_source_point_div_by_zero_witness :
    scatter_r2 unitSquarePml
        (fun i => (1/2) * (unitSquarePml.domain_bdr i 0 +
                           unitSquarePml.domain_bdr i 1)) = 0 ∧
    maxwell_ess_data unitSquarePml zeroLibm
        (fun i => (1/2) * (unitSquarePml.domain_bdr i 0 +
                           unitSquarePml.domain_bdr i 1))
      = scatter2d_E unitSquarePml zeroLibm
          (fun i => (1/2) * (unitSquarePml.domain_bdr i 0 +
                             unitSquarePml.domain_bdr i 1)) :=
  scatter_source_point_div_by_zero unitSquarePml zeroLibm rfl rfl

/-- C9: the volumetric source `source_im` assigns only component `0`
of its output vector; every other component keeps the value the passed
vector `f_im` already had (it is not set to zero). -/
theorem source_im_frame (cfg : Config) (x : ℕ → ℚ) (f_im : ℕ → ℝ) (j : ℕ)
    (hj : j ≠ 0) : source_im cfg x f_im j = f_im j := by
  simp [source_im, hj]

/-- Witness for C9: a vector holding `5` everywhere keeps `5` at
component `1`. -/
theorem source_im_frame_witness :
    source_im unitSquarePml (fun _ => 0) (fun _ => (5 : ℝ)) 1 = 5 :=
  source_im_frame unitSquarePml (fun _ => 0) (fun _ => (5 : ℝ)) 1 (by decide)

/-- C10: for the volumetric-load variant the essential boundary data
functions return the zero vector at every point and component, in both
the real and imaginary parts (no branch handles `load_src` beyond the
initial `E = 0`). -/
theorem E_bdr_load_src_zero (cfg : Config) (lib : Libm) (x : ℕ → ℚ) (j : ℕ)
    (h : cfg.prob = ProbType.load_src) :
    E_bdr_data_Re cfg lib x j = 0 ∧ E_bdr_data_Im cfg lib x j = 0 := by
  constructor <;> simp [E_bdr_data_Re, E_bdr_data_Im, h]

/-- Witness for C10: the load configuration at an interior point. -/
theorem E_bdr_load_src_zero_witness :
    E_bdr_data_Re loadCfg zeroLibm (fun _ => 1/2) 0 = 0 ∧
    E_bdr_data_Im loadCfg zeroLibm (fun _ => 1/2) 0 = 0 :=
  E_bdr_load_src_zero loadCfg zeroLibm (fun _ => 1/2) 0 rfl

end Ex23p
